import Mathlib
/-!
Shallow embedding of the `rap` team-management application, covering:

* `events/models.py` — `Event.create_recurring_events`, `Event.get_attendance_rate`
* `attendance/views.py` — the attendance `dashboard` statistics
* `notifications/tasks.py` — `send_automatic_event_reminders`
* `notifications/models.py` — `ScheduleConfiguration`, `EventScheduleOverride`,
  `AutomaticReminderLog` (uniqueness of `(event, reminder_type)`)
* `notifications/management/commands/setup_reminder_tasks.py`
* `utils/secrets.py` — `get_secret`

Python `datetime` values are modelled as a calendar date (year/month/day,
compared lexicographically, which agrees with the calendar order on valid
dates) together with a time-of-day measured in microseconds.  `timedelta`
day arithmetic and `dateutil.relativedelta` month/year arithmetic are
embedded directly.
-/
namespace Rap
/-! ### Calendar dates (`datetime.date`) -/
/-! ### Datetimes (`datetime.datetime`) -/
/-! ### `events/models.py`: the `Event` model and `create_recurring_events` -/
structure Date where
  year : Nat
  month : Nat
  day : Nat
deriving DecidableEq, Repr
/-- Strict calendar order, lexicographic on (year, month, day). -/
def Date.lt (a b : Date) : Prop :=
  a.year < b.year ∨
    (a.year = b.year ∧
      (a.month < b.month ∨ (a.month = b.month ∧ a.day < b.day)))
instance (a b : Date) : Decidable (Date.lt a b) := by
  unfold Date.lt; infer_instance
/-- Non-strict calendar order (`date.__le__`). -/
def Date.le (a b : Date) : Prop :=
  Date.lt a b ∨ a = b
instance (a b : Date) : Decidable (Date.le a b) := by
  unfold Date.le; infer_instance
/-- Leap-year test from the Gregorian calendar (`calendar.isleap`). -/
def isLeap (y : Nat) : Bool :=
  (y % 4 == 0 && y % 100 != 0) || y % 400 == 0
/-- Number of days in a month of a given year. -/
def daysInMonth (y m : Nat) : Nat :=
  if m = 2 then (if isLeap y then 29 else 28)
  else if m = 4 ∨ m = 6 ∨ m = 9 ∨ m = 11 then 30
  else 31
/-- Successor day in the calendar. -/
def Date.nextDay (d : Date) : Date :=
  if d.day < daysInMonth d.year d.month then ⟨d.year, d.month, d.day + 1⟩
  else if d.month < 12 then ⟨d.year, d.month + 1, 1⟩
  else ⟨d.year + 1, 1, 1⟩
/-- `date + timedelta(days=n)`. -/
def Date.addDays (d : Date) (n : Nat) : Date :=
  Date.nextDay^[n] d
/-- `date + relativedelta(months=1)`: advance the month (rolling into the
next year after December) and clamp the day to the length of the target
month, exactly as `dateutil.relativedelta` does. -/
def Date.addMonths1 (d : Date) : Date :=
  if d.month < 12 then
    ⟨d.year, d.month + 1, min d.day (daysInMonth d.year (d.month + 1))⟩
  else
    ⟨d.year + 1, 1, min d.day (daysInMonth (d.year + 1) 1)⟩
/-- `date + relativedelta(years=1)`: advance the year and clamp the day
(Feb 29 becomes Feb 28 in a non-leap year). -/
def Date.addYears1 (d : Date) : Date :=
  ⟨d.year + 1, d.month, min d.day (daysInMonth (d.year + 1) d.month)⟩
/-- A `datetime`: a calendar date plus a time-of-day in microseconds.
`timedelta(days=k)` and `relativedelta(months/years)` leave the
time-of-day unchanged. -/
structure DateTime where
  date : Date
  timeOfDay : Nat
deriving DecidableEq, Repr
/-- Strict order on datetimes (`datetime.__lt__`): by date, then time. -/
def DateTime.lt (a b : DateTime) : Prop :=
  Date.lt a.date b.date ∨ (a.date = b.date ∧ a.timeOfDay < b.timeOfDay)
instance (a b : DateTime) : Decidable (DateTime.lt a b) := by
  unfold DateTime.lt; infer_instance
def DateTime.le (a b : DateTime) : Prop :=
  DateTime.lt a b ∨ a = b
instance (a b : DateTime) : Decidable (DateTime.le a b) := by
  unfold DateTime.le; infer_instance
/-- The `recurrence_type` choices of the `Event` model. -/
inductive RecurrenceType
  | none | daily | weekly | biweekly | monthly | yearly
deriving DecidableEq, Repr
/-- The advance applied to `current_date` at the end of each loop
iteration of `create_recurring_events`.  `timedelta` day arithmetic and
`relativedelta` month/year arithmetic leave the time-of-day unchanged.
(No branch of the loop matches `"none"`, so that case is the identity,
matching the source where none of the `elif` arms fire.) -/
def recurrenceStep : RecurrenceType → DateTime → DateTime
  | .daily, dt => ⟨dt.date.addDays 1, dt.timeOfDay⟩
  | .weekly, dt => ⟨dt.date.addDays 7, dt.timeOfDay⟩
  | .biweekly, dt => ⟨dt.date.addDays 14, dt.timeOfDay⟩
  | .monthly, dt => ⟨dt.date.addMonths1, dt.timeOfDay⟩
  | .yearly, dt => ⟨dt.date.addYears1, dt.timeOfDay⟩
  | .none, dt => dt
/-- The `base_event_data` dict passed to `create_recurring_events`: a
start datetime plus the remaining model fields (name, description,
event_type, location, max_participants, is_mandatory), which the loop
copies unchanged; they are abstracted as an opaque payload `α`. -/
structure EventData (α : Type) where
  payload : α
  date : DateTime
deriving DecidableEq, Repr
/-- A row of the `Event` model as produced by `objects.create`; only the
fields `create_recurring_events` touches are explicit, the rest sit in
`payload`.  The model defaults are `recurring_event_link_id = NULL`,
`recurrence_type = "none"`, `recurrence_end_date = NULL`. -/
structure Event (α : Type) where
  payload : α
  date : DateTime
  recurringEventLinkId : Option Nat
  recurrenceType : RecurrenceType
  recurrenceEndDate : Option Date
deriving DecidableEq, Repr
/-- The row created inside the loop of `create_recurring_events` for one
occurrence: the base data with `date`, `recurring_event_link_id`,
`recurrence_type` and `recurrence_end_date` overwritten. -/
def mkRecurringEvent {α : Type} (base : EventData α) (t : RecurrenceType)
    (endDate : Date) (linkId : Nat) (cur : DateTime) : Event α :=
  { payload := base.payload
    date := cur
    recurringEventLinkId := some linkId
    recurrenceType := t
    recurrenceEndDate := some endDate }
/-- The `while current_date.date() <= end_date` loop of
`create_recurring_events`, with explicit fuel (the source loop terminates
because every step strictly advances the date). -/
def createRecurringEventsLoop {α : Type} (base : EventData α) (t : RecurrenceType)
    (endDate : Date) (linkId : Nat) : Nat → DateTime → List (Event α)
  | 0, _ => []
  | fuel + 1, cur =>
    if Date.le cur.date endDate then
      mkRecurringEvent base t endDate linkId cur ::
        createRecurringEventsLoop base t endDate linkId fuel (recurrenceStep t cur)
    else []
/-- `Event.create_recurring_events(base_event_data, recurrence_type,
end_date)`.  For `recurrence_type == "none"` it creates the single event
from the base data (model defaults fill the recurrence fields, since the
callers' `base_event_data` holds none of them); otherwise it generates a
fresh `link_id` (a parameter here, standing for `uuid.uuid4()`) and runs
the loop from the base start datetime. -/
def createRecurringEvents {α : Type} (base : EventData α) (t : RecurrenceType)
    (endDate : Date) (linkId : Nat) (fuel : Nat) : List (Event α) :=
  if t = RecurrenceType.none then
    [{ payload := base.payload
       date := base.date
       recurringEventLinkId := Option.none
       recurrenceType := RecurrenceType.none
       recurrenceEndDate := Option.none }]
  else
    createRecurringEventsLoop base t endDate linkId fuel base.date
/-- The infinite sequence of candidate occurrences `d, d+Δ, d+2Δ, …`. -/
def occurrence (t : RecurrenceType) (start : DateTime) (n : Nat) : DateTime :=
  (recurrenceStep t)^[n] start

/-! ### Python rounding (`round(x, 1)`) -/

/-- Python `round` to the nearest integer, halves to even (banker's
rounding), over exact rational arithmetic. -/
def pyRoundInt (q : ℚ) : ℤ :=
  if Int.fract q < 1/2 then ⌊q⌋
  else if 1/2 < Int.fract q then ⌊q⌋ + 1
  else if ⌊q⌋ % 2 = 0 then ⌊q⌋ else ⌊q⌋ + 1

/-- Python `round(x, 1)`: one decimal digit. -/
def pyRound1 (q : ℚ) : ℚ := (pyRoundInt (q * 10) : ℚ) / 10

/-! ### `Event.get_attendance_rate` -/

/-- `Event.get_total_responses`: the number of `Attendance` rows of the
event.  A row is represented by its `present` flag. -/
def get_total_responses (rows : List Bool) : Nat := rows.length

/-- `Event.get_attendance_count`: the rows with `present=True`. -/
def get_attendance_count (rows : List Bool) : Nat :=
  (rows.filter (fun b => b)).length

/-- `Event.get_attendance_rate`: `0` without responses, otherwise
`round((present / total) * 100, 1)`. -/
def get_attendance_rate (rows : List Bool) : ℚ :=
  if get_total_responses rows = 0 then 0
  else pyRound1 ((get_attendance_count rows : ℚ) / (get_total_responses rows : ℚ) * 100)

/-! ### `attendance/views.py`: the `dashboard` statistics -/

/-- One event as the dashboard sees it: its datetime and the requesting
user's `Attendance.present` flag, when the user has a row for it
(`mark_attendance` keeps at most one row per user and event). -/
structure DashboardEvent where
  date : DateTime
  userAttendance : Option Bool
deriving DecidableEq, Repr

/-- The statistics placed in the dashboard context. -/
structure DashboardStats where
  totalEvents : Nat
  presentCount : Nat
  absentCount : Nat
  attendanceRate : ℚ
deriving DecidableEq, Repr

/-- The statistics part of `attendance.views.dashboard`: past events are
those with `date < now`; `present_count` counts the user's rows with
`present=True` among past events; the rate is `present/total*100` for
`total > 0` and `0` otherwise, rounded to one decimal in the context;
`absent_count = total_past_events - present_count`. -/
def dashboard (events : List DashboardEvent) (now : DateTime) : DashboardStats :=
  let pastEvents := events.filter (fun e => decide (DateTime.lt e.date now))
  let totalPastEvents := pastEvents.length
  let presentCount :=
    (pastEvents.filter (fun e => e.userAttendance == some true)).length
  let attendanceRate : ℚ :=
    if 0 < totalPastEvents then (presentCount : ℚ) / (totalPastEvents : ℚ) * 100
    else 0
  { totalEvents := totalPastEvents
    presentCount := presentCount
    absentCount := totalPastEvents - presentCount
    attendanceRate := pyRound1 attendanceRate }

/-! ### `notifications/models.py`: `AutomaticReminderLog` -/

/-- A row of `AutomaticReminderLog`. -/
structure ReminderLog where
  eventId : Nat
  reminderType : String
  recipientsCount : Nat
  success : Bool
  errorMessage : String
deriving DecidableEq, Repr

/-- The `unique_together = ["event", "reminder_type"]` key of a row. -/
def ReminderLog.key (l : ReminderLog) : Nat × String :=
  (l.eventId, l.reminderType)

/-- `AutomaticReminderLog.objects.create(...)`: the insert commits only
when no row with the same `(event, reminder_type)` exists, because of the
unique constraint. -/
def insertLog (s : List ReminderLog) (l : ReminderLog) : Option (List ReminderLog) :=
  if s.any (fun r => r.eventId == l.eventId && r.reminderType == l.reminderType) then
    Option.none
  else some (l :: s)

/-- Log-table states reachable from the empty table through successful
constrained inserts and row deletions (`cleanup_old_reminder_logs`). -/
inductive LogReachable : List ReminderLog → Prop
  | empty : LogReachable []
  | insert {s s' : List ReminderLog} {l : ReminderLog} :
      LogReachable s → insertLog s l = some s' → LogReachable s'
  | delete {s : List ReminderLog} (l : ReminderLog) :
      LogReachable s → LogReachable (s.erase l)

/-! ### `notifications/tasks.py`: `send_automatic_event_reminders` -/

/-- `days_mapping.get(reminder_type, 7)`. -/
def daysBefore (reminderType : String) : Nat :=
  if reminderType = "1_week" then 7
  else if reminderType = "3_days" then 3
  else if reminderType = "1_day" then 1
  else if reminderType = "morning_of" then 0
  else 7

/-- `(now + timedelta(days=d)).replace(hour=0, minute=0, second=0,
microsecond=0)`. -/
def targetDateStart (now : DateTime) (d : Nat) : DateTime :=
  ⟨now.date.addDays d, 0⟩

/-- `target_date_start.replace(hour=23, minute=59, second=59,
microsecond=999999)`: the last microsecond of the same calendar day. -/
def targetDateEnd (now : DateTime) (d : Nat) : DateTime :=
  ⟨now.date.addDays d, 86399999999⟩

/-- An `Event` row as the reminder task sees it: primary key and datetime. -/
structure TaskEvent where
  id : Nat
  date : DateTime
deriving DecidableEq, Repr

/-- The queryset of `send_automatic_event_reminders`:
`date__gte=target_date_start`, `date__lte=target_date_end`,
`date__gt=now`, excluding events that already have an
`AutomaticReminderLog` row of this `reminder_type`. -/
def selectReminderEvents (events : List TaskEvent) (logs : List ReminderLog)
    (reminderType : String) (now : DateTime) : List TaskEvent :=
  let d := daysBefore reminderType
  events.filter (fun ev =>
    decide (DateTime.le (targetDateStart now d) ev.date) &&
    decide (DateTime.le ev.date (targetDateEnd now d)) &&
    decide (DateTime.lt now ev.date) &&
    !(logs.any (fun l => l.eventId == ev.id && l.reminderType == reminderType)))

/-- The per-event loop of `send_automatic_event_reminders`, over the
selected events.  `send ev` is the body of the `transaction.atomic()`
block (`send_morning_of_notification`, or the recipient count plus
`send_event_reminder_notification`): it yields the recipient count, or
raises.  On success the block commits one log row with `success=True` and
the success counter steps; on an exception the transaction rolls back, the
`except` arm writes a log row with `success=False`, `recipients_count=0`
and the message, and the failure counter steps.  Returns
`(successful, failed, the log rows written in order)`. -/
def processReminderEvents (send : TaskEvent → Except String Nat)
    (reminderType : String) : List TaskEvent → Nat × Nat × List ReminderLog
  | [] => (0, 0, [])
  | ev :: rest =>
    let r := processReminderEvents send reminderType rest
    match send ev with
    | .ok recipients =>
      (r.1 + 1, r.2.1, ⟨ev.id, reminderType, recipients, true, ""⟩ :: r.2.2)
    | .error msg =>
      (r.1, r.2.1 + 1, ⟨ev.id, reminderType, 0, false, msg⟩ :: r.2.2)

/-- Whether the per-event atomic block ran without an exception. -/
def isOk : Except String Nat → Bool
  | .ok _ => true
  | .error _ => false

/-- The one log row the loop writes for an event: the committed success
row, or the failure row written by the `except` arm. -/
def reminderLogRow (send : TaskEvent → Except String Nat)
    (reminderType : String) (ev : TaskEvent) : ReminderLog :=
  match send ev with
  | .ok n => ⟨ev.id, reminderType, n, true, ""⟩
  | .error msg => ⟨ev.id, reminderType, 0, false, msg⟩

/-! ### `ScheduleConfiguration` and `EventScheduleOverride` -/

/-- The five cron fields of `ScheduleConfiguration` (the remaining model
fields play no part in the schedules). -/
structure ScheduleConfiguration where
  minute : String
  hour : String
  dayOfWeek : String
  dayOfMonth : String
  monthOfYear : String
deriving DecidableEq, Repr

/-- `ScheduleConfiguration.get_cron_expression`:
`f"{minute} {hour} {day_of_month} {month_of_year} {day_of_week}"`. -/
def ScheduleConfiguration.get_cron_expression (c : ScheduleConfiguration) : String :=
  c.minute ++ " " ++ c.hour ++ " " ++ c.dayOfMonth ++ " " ++ c.monthOfYear
    ++ " " ++ c.dayOfWeek

/-- Python `a or b` on strings: `b` when `a` is the empty string. -/
def pyOrString (a b : String) : String := if a = "" then b else a

/-- An `EventScheduleOverride` row: the base configuration and the five
override fields (blank means: use the base). -/
structure EventScheduleOverride where
  configuration : ScheduleConfiguration
  overrideMinute : String
  overrideHour : String
  overrideDayOfWeek : String
  overrideDayOfMonth : String
  overrideMonthOfYear : String
deriving DecidableEq, Repr

/-- `EventScheduleOverride.get_effective_schedule`: the dict of the five
effective cron fields. -/
def EventScheduleOverride.get_effective_schedule (o : EventScheduleOverride) :
    ScheduleConfiguration :=
  { minute := pyOrString o.overrideMinute o.configuration.minute
    hour := pyOrString o.overrideHour o.configuration.hour
    dayOfWeek := pyOrString o.overrideDayOfWeek o.configuration.dayOfWeek
    dayOfMonth := pyOrString o.overrideDayOfMonth o.configuration.dayOfMonth
    monthOfYear := pyOrString o.overrideMonthOfYear o.configuration.monthOfYear }

/-- `EventScheduleOverride.get_effective_cron_expression`: formats the
effective fields in the same order as `get_cron_expression`. -/
def EventScheduleOverride.get_effective_cron_expression
    (o : EventScheduleOverride) : String :=
  o.get_effective_schedule.get_cron_expression

/-! ### `setup_reminder_tasks` management command -/

/-- A `CrontabSchedule` row (fields as in the `get_or_create` calls). -/
structure CrontabSchedule where
  minute : String
  hour : String
  dayOfWeek : String
  dayOfMonth : String
  monthOfYear : String
deriving DecidableEq, Repr

/-- The daily 9:00 schedule created by the command. -/
def dailySchedule : CrontabSchedule := ⟨"0", "9", "*", "*", "*"⟩

/-- The weekly Monday 2:00 schedule created by the command. -/
def weeklySchedule : CrontabSchedule := ⟨"0", "2", "1", "*", "*"⟩

/-- The fields of a `PeriodicTask` row that the command manages (every key
of its `task_data` dicts except `name`). -/
structure TaskFields where
  task : String
  crontab : CrontabSchedule
  kwargs : String
  enabled : Bool
  description : String
deriving DecidableEq, Repr

/-- First entry of `tasks_to_create`, as `(name, remaining fields)`. -/
def oneWeekTask : String × TaskFields :=
  ("1-week Event Reminders",
   { task := "notifications.tasks.send_automatic_event_reminders"
     crontab := dailySchedule
     kwargs := "\x7b\"reminder_type\": \"1_week\"\x7d"
     enabled := true
     description := "Send automatic reminders 1 week before events" })

/-- Second entry of `tasks_to_create` (disabled by default). -/
def threeDayTask : String × TaskFields :=
  ("3-day Event Reminders",
   { task := "notifications.tasks.send_automatic_event_reminders"
     crontab := dailySchedule
     kwargs := "\x7b\"reminder_type\": \"3_days\"\x7d"
     enabled := false
     description := "Send automatic reminders 3 days before events" })

/-- Third entry of `tasks_to_create` (disabled by default). -/
def oneDayTask : String × TaskFields :=
  ("1-day Event Reminders",
   { task := "notifications.tasks.send_automatic_event_reminders"
     crontab := dailySchedule
     kwargs := "\x7b\"reminder_type\": \"1_day\"\x7d"
     enabled := false
     description := "Send automatic reminders 1 day before events" })

/-- Fourth entry of `tasks_to_create`. -/
def cleanupTask : String × TaskFields :=
  ("Cleanup Old Reminder Logs",
   { task := "notifications.tasks.cleanup_old_reminder_logs"
     crontab := weeklySchedule
     kwargs := "\x7b\"days_to_keep\": 90\x7d"
     enabled := true
     description := "Clean up automatic reminder logs older than 90 days" })

/-- The `tasks_to_create` list of `Command.handle`. -/
def defaultTasks : List (String × TaskFields) :=
  [oneWeekTask, threeDayTask, oneDayTask, cleanupTask]

/-- One iteration of the command's loop for the entry `(name, fields)`:
when a task of that name exists it is updated on `--overwrite` (every
field except the name) and left alone otherwise; when none exists it is
created from the entry. -/
def handleTask (overwrite : Bool) (db : String → Option TaskFields)
    (entry : String × TaskFields) : String → Option TaskFields :=
  fun n =>
    if n = entry.1 then
      match db entry.1 with
      | some existing => if overwrite then some entry.2 else some existing
      | Option.none => some entry.2
    else db n

/-- `Command.handle` of `setup_reminder_tasks`: fold the loop over the
default task list.  The `PeriodicTask` table is the map from task name to
fields. -/
def setupReminderTasks (overwrite : Bool) (db : String → Option TaskFields) :
    String → Option TaskFields :=
  defaultTasks.foldl (handleTask overwrite) db

/-! ### `utils/secrets.py`: `get_secret` -/

/-- Split a character list at `'/'`; parts are slash-free and the
separators are consumed. -/
def splitSlash : List Char → List (List Char)
  | [] => [[]]
  | c :: cs =>
    if c = '/' then [] :: splitSlash cs
    else
      match splitSlash cs with
      | [] => [[c]]
      | p :: ps => (c :: p) :: ps

/-- Rejoin what `splitSlash` produced, putting `'/'` between the parts. -/
def joinSlash : List (List Char) → List Char
  | [] => []
  | [p] => p
  | p :: ps => p ++ '/' :: joinSlash ps

/-- `re.match(r"^op://[^/]+/[^/]+/[^/]+$", path)`: the literal `op://`
followed by three nonempty runs of non-`/` characters separated by `/`.
(`$` also matches just before one trailing newline; that adds no strings
beyond this language, because such a newline is itself matched by the
final `[^/]+`.) -/
def opPathRegexMatch (path : String) : Bool :=
  match path.data with
  | 'o' :: 'p' :: ':' :: '/' :: '/' :: rest =>
    (splitSlash rest).length == 3 && (splitSlash rest).all (fun p => !p.isEmpty)
  | _ => false

/-- The form the claim describes (modelled from the claim's words, to be
compared with the source's regex): `op://<vault>/<item>/<field>` with
three non-empty segments, none containing a slash. -/
def isOpSecretPath (path : String) : Prop :=
  ∃ v i f : List Char,
    v ≠ [] ∧ i ≠ [] ∧ f ≠ [] ∧
    ('/' ∈ v → False) ∧ ('/' ∈ i → False) ∧ ('/' ∈ f → False) ∧
    path.data = "op://".data ++ (v ++ ('/' :: (i ++ ('/' :: f))))

/-- Python `str.isspace` characters relevant to `str.strip()`. -/
def pyIsSpace (c : Char) : Bool :=
  c = ' ' || c = '\t' || c = '\n' || c = '\r' || c = '\x0b' || c = '\x0c'

/-- Python `str.strip()`: drop leading and trailing whitespace. -/
def pyStrip (s : String) : String :=
  ⟨((s.data.dropWhile pyIsSpace).reverse.dropWhile pyIsSpace).reverse⟩

/-- The observable outcome of a `get_secret` call: the returned secret
(`Option.none` means the `ValueError` was raised), the final process
environment, and the `subprocess.check_output` command lines invoked. -/
structure GetSecretOutcome where
  result : Option String
  env : String → Option String
  calls : List (List String)

/-- `utils.secrets.get_secret(path, env_var)`, over an explicit
environment and an oracle `opRead` giving the output of `op read path`. -/
def get_secret (opRead : String → String) (path : String)
    (envVar : Option String) (env : String → Option String) : GetSecretOutcome :=
  if opPathRegexMatch path then
    let secret := pyStrip (opRead path)
    { result := some secret
      env := fun n =>
        match envVar with
        | some v => if n = v then some secret else env n
        | Option.none => env n
      calls := [["op", "read", path]] }
  else
    { result := Option.none, env := env, calls := [] }

/-! ### Concrete inputs used by the witnesses -/

/-- Witness base event datum: start 2024-01-31, 10:00. -/
def c1Base : EventData Unit := ⟨(), ⟨⟨2024, 1, 31⟩, 36000000000⟩⟩

/-- Witness recurrence end date: 2024-04-01. -/
def c1End : Date := ⟨2024, 4, 1⟩

/-- Witness base event datum: start 2025-06-10, midnight. -/
def c9Base : EventData Unit := ⟨(), ⟨⟨2025, 6, 10⟩, 0⟩⟩

/-- Witness recurrence end date before the start: 2025-06-09. -/
def c9End : Date := ⟨2025, 6, 9⟩

/-- Witness clock: 2025-06-01, 12:00. -/
def c4Now : DateTime := ⟨⟨2025, 6, 1⟩, 43200000000⟩

/-- Witness event one week ahead of `c4Now` (2025-06-08, 10:00). -/
def c4Event : TaskEvent := ⟨1, ⟨⟨2025, 6, 8⟩, 36000000000⟩⟩

/-- Witness log row for a different event (id 2). -/
def c4Log : ReminderLog := ⟨2, "1_week", 5, true, ""⟩

/-- Witness log row used for the reachable-state instance. -/
def c4Log2 : ReminderLog := ⟨3, "1_day", 0, true, ""⟩

/-- Counterexample log row: the `1_week` reminder for event 1 was already
sent. -/
def c5LogSent : ReminderLog := ⟨1, "1_week", 3, true, ""⟩

/-- Witness event used with the unrecognised reminder type (2025-06-08,
08:00, seven days ahead of `c4Now`). -/
def c5Event2 : TaskEvent := ⟨4, ⟨⟨2025, 6, 8⟩, 28800000000⟩⟩

/-- Witness events for the send loop. -/
def c6Ev1 : TaskEvent := ⟨1, ⟨⟨2025, 6, 8⟩, 0⟩⟩

def c6Ev2 : TaskEvent := ⟨2, ⟨⟨2025, 6, 8⟩, 3600000000⟩⟩

/-- Witness send behaviour: event 1 reaches 5 recipients, every other
event raises. -/
def c6Send : TaskEvent → Except String Nat :=
  fun ev => if ev.id = 1 then Except.ok 5 else Except.error "boom"

/-- Witness pre-existing `PeriodicTask` row fields (manually customised,
different from the defaults). -/
def c8Fields : TaskFields :=
  { task := "custom.task"
    crontab := weeklySchedule
    kwargs := "custom"
    enabled := false
    description := "customised" }

/-- Witness `PeriodicTask` table: only the 1-week task exists, with
customised fields. -/
def c8Db : String → Option TaskFields :=
  fun n => if n = "1-week Event Reminders" then some c8Fields else Option.none

/-- Witness base schedule configuration (daily 9:00). -/
def c7Config : ScheduleConfiguration := ⟨"0", "9", "*", "*", "*"⟩

/-- Witness override: only the minute is overridden. -/
def c7Override : EventScheduleOverride := ⟨c7Config, "30", "", "", "", ""⟩

/-- Witness override with all five fields blank. -/
def c7Blank : EventScheduleOverride := ⟨c7Config, "", "", "", "", ""⟩

/-- Witness `op read` oracle: every path yields a padded secret. -/
def c10Read : String → String := fun _ => "  s3cr3t\n"

/-- Witness process environment: empty. -/
def c10Env : String → Option String := fun _ => Option.none

/-! ## Theorems -/
theorem Date.lt_trans {a b c : Date} (h1 : Date.lt a b) (h2 : Date.lt b c) :
    Date.lt a c := by
  obtain ⟨ay, am, ad⟩ := a
  obtain ⟨by_, bm, bd⟩ := b
  obtain ⟨cy, cm, cd⟩ := c
  simp only [Date.lt] at *
  omega
theorem Date.lt_irrefl (a : Date) : ¬ Date.lt a a := by
  obtain ⟨ay, am, ad⟩ := a
  simp only [Date.lt]
  omega
theorem Date.lt_of_lt_of_le {a b c : Date} (h1 : Date.lt a b) (h2 : Date.le b c) :
    Date.lt a c := by
  rcases h2 with h2 | rfl
  · exact Date.lt_trans h1 h2
  · exact h1
theorem Date.not_le_of_not_le_of_lt {e a b : Date}
    (h1 : ¬ Date.le a e) (h2 : Date.lt a b) : ¬ Date.le b e := by
  intro hbe
  exact h1 (Or.inl (Date.lt_of_lt_of_le h2 hbe))
theorem Date.lt_nextDay (d : Date) : Date.lt d d.nextDay := by
  obtain ⟨y, m, dd⟩ := d
  simp only [Date.nextDay, Date.lt]
  split
  · dsimp only
    omega
  · split <;> (dsimp only; omega)
theorem Date.lt_addDays (d : Date) {n : Nat} (hn : 1 ≤ n) :
    Date.lt d (d.addDays n) := by
  induction n with
  | zero => omega
  | succ k ih =>
    rw [Date.addDays, Function.iterate_succ_apply']
    rcases Nat.eq_or_lt_of_le hn with h | h
    · have hk : k = 0 := by omega
      subst hk
      simpa [Date.addDays] using Date.lt_nextDay d
    · have hk : 1 ≤ k := by omega
      exact Date.lt_trans (ih hk) (Date.lt_nextDay _)
theorem Date.lt_addMonths1 (d : Date) : Date.lt d d.addMonths1 := by
  obtain ⟨y, m, dd⟩ := d
  simp only [Date.addMonths1, Date.lt]
  split <;> (dsimp only; omega)
theorem Date.lt_addYears1 (d : Date) : Date.lt d d.addYears1 := by
  obtain ⟨y, m, dd⟩ := d
  simp only [Date.addYears1, Date.lt]
  omega
theorem recurrenceStep_date_lt (t : RecurrenceType) (ht : t ≠ RecurrenceType.none)
    (dt : DateTime) : Date.lt dt.date (recurrenceStep t dt).date := by
  cases t with
  | none => exact absurd rfl ht
  | daily =>
    simp only [recurrenceStep]
    exact Date.lt_addDays dt.date (by omega)
  | weekly =>
    simp only [recurrenceStep]
    exact Date.lt_addDays dt.date (by omega)
  | biweekly =>
    simp only [recurrenceStep]
    exact Date.lt_addDays dt.date (by omega)
  | monthly =>
    simp only [recurrenceStep]
    exact Date.lt_addMonths1 dt.date
  | yearly =>
    simp only [recurrenceStep]
    exact Date.lt_addYears1 dt.date
theorem occurrence_zero (t : RecurrenceType) (start : DateTime) :
    occurrence t start 0 = start := rfl
theorem occurrence_succ_shift (t : RecurrenceType) (start : DateTime) (n : Nat) :
    occurrence t start (n + 1) = occurrence t (recurrenceStep t start) n := by
  simp [occurrence, Function.iterate_succ_apply]
theorem occurrence_date_strictMono (t : RecurrenceType) (ht : t ≠ RecurrenceType.none)
    (start : DateTime) {m n : Nat} (h : m < n) :
    Date.lt (occurrence t start m).date (occurrence t start n).date := by
  induction n with
  | zero => omega
  | succ k ih =>
    have hk : (occurrence t start (k + 1)) = recurrenceStep t (occurrence t start k) := by
      simp [occurrence, Function.iterate_succ_apply']
    rcases Nat.lt_succ_iff_lt_or_eq.mp h with h' | h'
    · exact Date.lt_trans (ih h') (hk ▸ recurrenceStep_date_lt t ht _)
    · subst h'
      exact hk ▸ recurrenceStep_date_lt t ht _
/-- Core loop characterisation: when the fuel is enough to reach the first
occurrence past `endDate`, the loop emits exactly the occurrences up to
(and excluding) that point, in order. -/
theorem createRecurringEventsLoop_eq {α : Type} (base : EventData α)
    (t : RecurrenceType) (ht : t ≠ RecurrenceType.none) (endDate : Date) (linkId : Nat) :
    ∀ (fuel : Nat) (cur : DateTime),
      ¬ Date.le (occurrence t cur fuel).date endDate →
      ∃ N ≤ fuel,
        createRecurringEventsLoop base t endDate linkId fuel cur =
          (List.range N).map (fun n => mkRecurringEvent base t endDate linkId
            (occurrence t cur n)) ∧
        (∀ n, Date.le (occurrence t cur n).date endDate ↔ n < N) := by
  intro fuel
  induction fuel with
  | zero =>
    intro cur hstop
    refine ⟨0, Nat.le_refl 0, rfl, fun n => ?_⟩
    simp only [Nat.not_lt_zero, iff_false]
    rcases Nat.eq_zero_or_pos n with hn | hn
    · subst hn; exact hstop
    · exact Date.not_le_of_not_le_of_lt hstop
        (occurrence_date_strictMono t ht cur hn)
  | succ fuel ih =>
    intro cur hstop
    by_cases hcur : Date.le cur.date endDate
    · have hstop' : ¬ Date.le (occurrence t (recurrenceStep t cur) fuel).date endDate := by
        rw [← occurrence_succ_shift]
        exact hstop
      obtain ⟨N, hNle, heq, hiff⟩ := ih (recurrenceStep t cur) hstop'
      refine ⟨N + 1, by omega, ?_, ?_⟩
      · rw [createRecurringEventsLoop, if_pos hcur, heq,
          List.range_succ_eq_map, List.map_cons]
        congr 1
        rw [List.map_map]
        apply List.map_congr_left
        intro n _
        simp [Function.comp, occurrence_succ_shift]
      · intro n
        cases n with
        | zero =>
          simpa [occurrence_zero] using hcur
        | succ k =>
          rw [occurrence_succ_shift]
          constructor
          · intro h
            exact Nat.succ_lt_succ ((hiff k).mp h)
          · intro h
            exact (hiff k).mpr (Nat.lt_of_succ_lt_succ h)
    · refine ⟨0, by omega, ?_, fun n => ?_⟩
      · rw [createRecurringEventsLoop, if_neg hcur]
        rfl
      · simp only [Nat.not_lt_zero, iff_false]
        rcases Nat.eq_zero_or_pos n with hn | hn
        · subst hn; exact hcur
        · exact Date.not_le_of_not_le_of_lt hcur
            (occurrence_date_strictMono t ht cur hn)

/-- C1: for a base event datum with start datetime `d`, a recurrence type
among daily/weekly/biweekly/monthly/yearly and an end date `e`,
`Event.create_recurring_events` creates events at exactly the dates
`d, d+Δ, d+2Δ, …` — every occurrence whose calendar date is on or before
`e`, and only those — in ascending date order, all carrying the one
generated `recurring_event_link_id`, the given `recurrence_type` and
`recurrence_end_date = e`; no created event is dated after `e`.  (`fuel`
bounds the loop; the hypothesis says it reaches the first occurrence past
`e`, which the strictly advancing dates guarantee in the source.) -/
theorem create_recurring_events_spec {α : Type} (base : EventData α)
    (t : RecurrenceType) (endDate : Date) (linkId fuel : Nat)
    (ht : t ≠ RecurrenceType.none)
    (hfuel : ¬ Date.le (occurrence t base.date fuel).date endDate) :
    ∃ N ≤ fuel,
      createRecurringEvents base t endDate linkId fuel =
        (List.range N).map (fun n =>
          mkRecurringEvent base t endDate linkId (occurrence t base.date n)) ∧
      (∀ n, Date.le (occurrence t base.date n).date endDate ↔ n < N) ∧
      (∀ ev ∈ createRecurringEvents base t endDate linkId fuel,
        ev.recurringEventLinkId = some linkId ∧ ev.recurrenceType = t ∧
        ev.recurrenceEndDate = some endDate ∧ Date.le ev.date.date endDate) ∧
      (createRecurringEvents base t endDate linkId fuel).Pairwise
        (fun a b => Date.lt a.date.date b.date.date) := by
  obtain ⟨N, hNle, heq, hiff⟩ :=
    createRecurringEventsLoop_eq base t ht endDate linkId fuel base.date hfuel
  have hunfold : createRecurringEvents base t endDate linkId fuel =
      createRecurringEventsLoop base t endDate linkId fuel base.date := by
    rw [createRecurringEvents, if_neg ht]
  refine ⟨N, hNle, by rw [hunfold, heq], hiff, ?_, ?_⟩
  · intro ev hev
    rw [hunfold, heq] at hev
    obtain ⟨n, hn, rfl⟩ := List.mem_map.mp hev
    exact ⟨rfl, rfl, rfl, (hiff n).mpr (List.mem_range.mp hn)⟩
  · rw [hunfold, heq]
    exact List.Pairwise.map _
      (fun a b hab => occurrence_date_strictMono t ht base.date hab)
      (List.pairwise_lt_range N)

/-- Witness for C1: a monthly series from 2024-01-31 (clamped to
2024-02-29, 2024-03-29, …) ending 2024-04-01, with fuel 4. -/
theorem create_recurring_events_spec_witness :
    (RecurrenceType.monthly ≠ RecurrenceType.none) ∧
    (¬ Date.le (occurrence RecurrenceType.monthly c1Base.date 4).date c1End) ∧
    (∃ N ≤ 4,
      createRecurringEvents c1Base RecurrenceType.monthly c1End 7 4 =
        (List.range N).map (fun n =>
          mkRecurringEvent c1Base RecurrenceType.monthly c1End 7
            (occurrence RecurrenceType.monthly c1Base.date n)) ∧
      (∀ n, Date.le (occurrence RecurrenceType.monthly c1Base.date n).date c1End
        ↔ n < N) ∧
      (∀ ev ∈ createRecurringEvents c1Base RecurrenceType.monthly c1End 7 4,
        ev.recurringEventLinkId = some 7 ∧
        ev.recurrenceType = RecurrenceType.monthly ∧
        ev.recurrenceEndDate = some c1End ∧ Date.le ev.date.date c1End) ∧
      (createRecurringEvents c1Base RecurrenceType.monthly c1End 7 4).Pairwise
        (fun a b => Date.lt a.date.date b.date.date)) :=
  ⟨by decide, by decide,
    create_recurring_events_spec c1Base RecurrenceType.monthly c1End 7 4
      (by decide) (by decide)⟩

/-- C9: with a non-`"none"` recurrence type whose start date is already
after `end_date`, `create_recurring_events` creates nothing and returns
the empty list; with `recurrence_type "none"` it returns exactly one event
built from the base data — whatever `end_date` is — with no
`recurring_event_link_id` assigned. -/
theorem create_recurring_events_edge {α : Type} (base : EventData α)
    (t : RecurrenceType) (endDate : Date) (linkId fuel : Nat) :
    (t ≠ RecurrenceType.none → ¬ Date.le base.date.date endDate →
      createRecurringEvents base t endDate linkId fuel = []) ∧
    (createRecurringEvents base RecurrenceType.none endDate linkId fuel =
      [{ payload := base.payload
         date := base.date
         recurringEventLinkId := Option.none
         recurrenceType := RecurrenceType.none
         recurrenceEndDate := Option.none }]) := by
  constructor
  · intro ht hlt
    rw [createRecurringEvents, if_neg ht]
    cases fuel with
    | zero => rfl
    | succ k => rw [createRecurringEventsLoop, if_neg hlt]
  · rw [createRecurringEvents, if_pos rfl]

/-- Witness for C9: a weekly recurrence starting 2025-06-10 with end date
2025-06-09 creates nothing; `"none"` creates the single base event. -/
theorem create_recurring_events_edge_witness :
    (RecurrenceType.weekly ≠ RecurrenceType.none) ∧
    (¬ Date.le c9Base.date.date c9End) ∧
    createRecurringEvents c9Base RecurrenceType.weekly c9End 3 10 = [] ∧
    createRecurringEvents c9Base RecurrenceType.none c9End 3 10 =
      [{ payload := ()
         date := c9Base.date
         recurringEventLinkId := Option.none
         recurrenceType := RecurrenceType.none
         recurrenceEndDate := Option.none }] :=
  ⟨by decide, by decide,
   (create_recurring_events_edge c9Base RecurrenceType.weekly c9End 3 10).1
     (by decide) (by decide),
   (create_recurring_events_edge c9Base RecurrenceType.none c9End 3 10).2⟩

theorem pyRoundInt_ge_floor (q : ℚ) : ⌊q⌋ ≤ pyRoundInt q := by
  unfold pyRoundInt
  split
  · omega
  · split
    · omega
    · split <;> omega

theorem pyRoundInt_nonneg (q : ℚ) (h : 0 ≤ q) : 0 ≤ pyRoundInt q :=
  le_trans (Int.floor_nonneg.mpr h) (pyRoundInt_ge_floor q)

theorem pyRoundInt_le (q : ℚ) (B : ℤ) (h : q ≤ (B : ℚ)) : pyRoundInt q ≤ B := by
  have hfl : ⌊q⌋ ≤ B := by
    have h1 := Int.floor_le_floor h
    simpa using h1
  unfold pyRoundInt
  split
  · exact hfl
  next h1 =>
    have hfr : (1 : ℚ) / 2 ≤ Int.fract q := le_of_not_lt h1
    have hfr0 : 0 < Int.fract q := lt_of_lt_of_le (by norm_num) hfr
    have hlt : (⌊q⌋ : ℚ) < q := by
      have hq := Int.floor_add_fract q
      linarith
    have hltB : ⌊q⌋ < B := by
      have hx : (⌊q⌋ : ℚ) < (B : ℚ) := lt_of_lt_of_le hlt h
      exact_mod_cast hx
    split
    · omega
    · split <;> omega

theorem pyRound1_nonneg {q : ℚ} (h : 0 ≤ q) : 0 ≤ pyRound1 q := by
  unfold pyRound1
  have h1 : (0 : ℤ) ≤ pyRoundInt (q * 10) :=
    pyRoundInt_nonneg _ (by linarith)
  have h2 : (0 : ℚ) ≤ (pyRoundInt (q * 10) : ℚ) := by exact_mod_cast h1
  linarith

theorem pyRound1_le_hundred {q : ℚ} (h : q ≤ 100) : pyRound1 q ≤ 100 := by
  unfold pyRound1
  have h1 : pyRoundInt (q * 10) ≤ (1000 : ℤ) :=
    pyRoundInt_le _ 1000 (by push_cast; linarith)
  have h2 : (pyRoundInt (q * 10) : ℚ) ≤ (1000 : ℚ) := by exact_mod_cast h1
  linarith

/-- C2: `Event.get_attendance_rate` returns `0` when the event has no
attendance responses, and otherwise `round(present / total * 100, 1)` with
`present` the number of rows with `present=True` and `total` the number of
all rows; the result always lies between `0` and `100`. -/
theorem get_attendance_rate_spec (rows : List Bool) :
    (get_total_responses rows = 0 → get_attendance_rate rows = 0) ∧
    (get_total_responses rows ≠ 0 →
      get_attendance_rate rows =
        pyRound1 ((get_attendance_count rows : ℚ) /
          (get_total_responses rows : ℚ) * 100)) ∧
    0 ≤ get_attendance_rate rows ∧ get_attendance_rate rows ≤ 100 := by
  refine ⟨fun h => by rw [get_attendance_rate, if_pos h],
    fun h => by rw [get_attendance_rate, if_neg h], ?_⟩
  rw [get_attendance_rate]
  split
  · norm_num
  next h =>
    have htpos : 0 < (get_total_responses rows : ℚ) := by
      have : 0 < get_total_responses rows := Nat.pos_of_ne_zero h
      exact_mod_cast this
    have hple : get_attendance_count rows ≤ get_total_responses rows :=
      List.length_filter_le _ rows
    have hx0 : 0 ≤ (get_attendance_count rows : ℚ) /
        (get_total_responses rows : ℚ) * 100 := by positivity
    have hx1 : (get_attendance_count rows : ℚ) /
        (get_total_responses rows : ℚ) * 100 ≤ 100 := by
      have hdiv : (get_attendance_count rows : ℚ) /
          (get_total_responses rows : ℚ) ≤ 1 := by
        rw [div_le_one htpos]
        exact_mod_cast hple
      linarith
    exact ⟨pyRound1_nonneg hx0, pyRound1_le_hundred hx1⟩

/-- Witness for C2: no responses gives 0; two of three present gives
`round(200/3, 1)`; both instances lie in `[0, 100]`. -/
theorem get_attendance_rate_spec_witness :
    (get_total_responses ([] : List Bool) = 0 ∧
      get_attendance_rate ([] : List Bool) = 0) ∧
    (get_total_responses [true, false, true] ≠ 0 ∧
      get_attendance_rate [true, false, true] =
        pyRound1 ((get_attendance_count [true, false, true] : ℚ) /
          (get_total_responses [true, false, true] : ℚ) * 100)) ∧
    0 ≤ get_attendance_rate [true, false, true] ∧
    get_attendance_rate [true, false, true] ≤ 100 :=
  ⟨⟨by decide, (get_attendance_rate_spec []).1 (by decide)⟩,
   ⟨by decide, (get_attendance_rate_spec [true, false, true]).2.1 (by decide)⟩,
   (get_attendance_rate_spec [true, false, true]).2.2⟩

theorem pyRoundInt_zero : pyRoundInt 0 = 0 := by
  unfold pyRoundInt
  rw [Int.fract_zero, Int.floor_zero]
  norm_num

theorem pyRound1_zero : pyRound1 0 = 0 := by
  unfold pyRound1
  norm_num [pyRoundInt_zero]

/-- C3: the attendance dashboard computes the user's rate over past events
only (`date < now`): the rate is `0` with no past events and otherwise
`round(present_count / total_past_events * 100, 1)`, where `present_count`
counts only explicit `present=True` rows — a past event without a row
contributes to the denominator but not the numerator, i.e. counts as
absent — and `absent_count` always equals
`total_past_events - present_count` (well-defined, as
`present_count ≤ total_past_events`). -/
theorem dashboard_spec (events : List DashboardEvent) (now : DateTime) :
    (dashboard events now).totalEvents =
      (events.filter (fun e => decide (DateTime.lt e.date now))).length ∧
    (dashboard events now).presentCount =
      ((events.filter (fun e => decide (DateTime.lt e.date now))).filter
        (fun e => e.userAttendance == some true)).length ∧
    ((dashboard events now).totalEvents = 0 →
      (dashboard events now).attendanceRate = 0) ∧
    (0 < (dashboard events now).totalEvents →
      (dashboard events now).attendanceRate =
        pyRound1 (((dashboard events now).presentCount : ℚ) /
          ((dashboard events now).totalEvents : ℚ) * 100)) ∧
    (dashboard events now).presentCount ≤ (dashboard events now).totalEvents ∧
    (dashboard events now).absentCount =
      (dashboard events now).totalEvents - (dashboard events now).presentCount := by
  have hrate : (dashboard events now).attendanceRate =
      pyRound1 (if 0 < (dashboard events now).totalEvents then
        ((dashboard events now).presentCount : ℚ) /
          ((dashboard events now).totalEvents : ℚ) * 100
      else 0) := rfl
  refine ⟨rfl, rfl, ?_, ?_, ?_, rfl⟩
  · intro h
    rw [hrate, if_neg (by omega)]
    exact pyRound1_zero
  · intro h
    rw [hrate, if_pos h]
  · exact List.length_filter_le _ _

/-- Witness for C3: one past attended event, one past event without a row,
one future event; and separately a run with no past events at all. -/
theorem dashboard_spec_witness :
    ((dashboard [⟨⟨⟨2025, 1, 10⟩, 0⟩, some true⟩, ⟨⟨⟨2025, 1, 20⟩, 0⟩, Option.none⟩,
        ⟨⟨⟨2025, 9, 1⟩, 0⟩, some true⟩] ⟨⟨2025, 6, 1⟩, 0⟩).totalEvents = 0 → False) ∧
    (0 < (dashboard [⟨⟨⟨2025, 1, 10⟩, 0⟩, some true⟩, ⟨⟨⟨2025, 1, 20⟩, 0⟩, Option.none⟩,
        ⟨⟨⟨2025, 9, 1⟩, 0⟩, some true⟩] ⟨⟨2025, 6, 1⟩, 0⟩).totalEvents) ∧
    (dashboard [⟨⟨⟨2025, 1, 10⟩, 0⟩, some true⟩, ⟨⟨⟨2025, 1, 20⟩, 0⟩, Option.none⟩,
        ⟨⟨⟨2025, 9, 1⟩, 0⟩, some true⟩] ⟨⟨2025, 6, 1⟩, 0⟩).attendanceRate =
      pyRound1 (((dashboard [⟨⟨⟨2025, 1, 10⟩, 0⟩, some true⟩,
          ⟨⟨⟨2025, 1, 20⟩, 0⟩, Option.none⟩,
          ⟨⟨⟨2025, 9, 1⟩, 0⟩, some true⟩] ⟨⟨2025, 6, 1⟩, 0⟩).presentCount : ℚ) /
        ((dashboard [⟨⟨⟨2025, 1, 10⟩, 0⟩, some true⟩,
          ⟨⟨⟨2025, 1, 20⟩, 0⟩, Option.none⟩,
          ⟨⟨⟨2025, 9, 1⟩, 0⟩, some true⟩] ⟨⟨2025, 6, 1⟩, 0⟩).totalEvents : ℚ) * 100) ∧
    ((dashboard ([] : List DashboardEvent) ⟨⟨2025, 6, 1⟩, 0⟩).totalEvents = 0) ∧
    ((dashboard ([] : List DashboardEvent) ⟨⟨2025, 6, 1⟩, 0⟩).attendanceRate = 0) :=
  ⟨by decide, by decide,
   (dashboard_spec [⟨⟨⟨2025, 1, 10⟩, 0⟩, some true⟩, ⟨⟨⟨2025, 1, 20⟩, 0⟩, Option.none⟩,
      ⟨⟨⟨2025, 9, 1⟩, 0⟩, some true⟩] ⟨⟨2025, 6, 1⟩, 0⟩).2.2.2.1 (by decide),
   by decide,
   (dashboard_spec ([] : List DashboardEvent) ⟨⟨2025, 6, 1⟩, 0⟩).2.2.1 (by decide)⟩

/-- C4: an automatic reminder is never sent twice for one event and type:
the task's queryset excludes every event that already has an
`AutomaticReminderLog` row of the `reminder_type`, and in every state
reachable through the constrained inserts and deletions the
`(event, reminder_type)` keys are pairwise distinct, so at most one log
row exists per event and type. -/
theorem automatic_reminder_no_duplicates (events : List TaskEvent)
    (logs : List ReminderLog) (reminderType : String) (now : DateTime) :
    (∀ ev ∈ selectReminderEvents events logs reminderType now,
      ∀ l ∈ logs, ¬ (l.eventId = ev.id ∧ l.reminderType = reminderType)) ∧
    (∀ s : List ReminderLog, LogReachable s → (s.map ReminderLog.key).Nodup) := by
  constructor
  · rintro ev hev l hl ⟨he, ht⟩
    rw [selectReminderEvents] at hev
    have hcond := (List.mem_filter.mp hev).2
    simp only [Bool.and_eq_true, Bool.not_eq_true', List.any_eq_false] at hcond
    have hfalse := hcond.2 l hl
    rw [he, ht] at hfalse
    simp at hfalse
  · intro s hs
    induction hs with
    | empty => exact List.nodup_nil
    | @insert s s' l hre hins ih =>
      rw [insertLog] at hins
      split at hins
      · simp at hins
      next hany =>
        obtain rfl : l :: s = s' := by injection hins
        simp only [List.map_cons, List.nodup_cons]
        refine ⟨fun hmem => ?_, ih⟩
        obtain ⟨r, hr, hkey⟩ := List.mem_map.mp hmem
        have hkey2 : r.eventId = l.eventId ∧ r.reminderType = l.reminderType := by
          have := congrArg Prod.fst hkey
          have := congrArg Prod.snd hkey
          exact ⟨by assumption, by assumption⟩
        exact hany (List.any_eq_true.mpr
          ⟨r, hr, by simp [hkey2.1, hkey2.2]⟩)
    | @delete s l hre ih =>
      exact ih.sublist ((List.erase_sublist l s).map ReminderLog.key)

/-- Witness for C4: event 1 is selected while only a log for event 2
exists, and that log is not for event 1; the one-insert state is
reachable and duplicate-free. -/
theorem automatic_reminder_no_duplicates_witness :
    (¬ (c4Log.eventId = c4Event.id ∧ c4Log.reminderType = "1_week")) ∧
    (([c4Log2].map ReminderLog.key).Nodup) :=
  ⟨(automatic_reminder_no_duplicates [c4Event] [c4Log] "1_week" c4Now).1
      c4Event (by decide) c4Log (by decide),
   (automatic_reminder_no_duplicates [c4Event] [c4Log] "1_week" c4Now).2
      [c4Log2] (@LogReachable.insert [] [c4Log2] c4Log2 LogReachable.empty (by decide))⟩

/-- Lying between the first and the last microsecond of a calendar day is
the same as having that calendar date (for a valid time-of-day). -/
theorem window_iff (day : Date) (dt : DateTime) (ht : dt.timeOfDay < 86400000000) :
    (DateTime.le ⟨day, 0⟩ dt ∧ DateTime.le dt ⟨day, 86399999999⟩) ↔
      dt.date = day := by
  obtain ⟨d, t⟩ := dt
  simp only [DateTime.le, DateTime.lt] at *
  constructor
  · rintro ⟨h1, h2⟩
    rcases h1 with (hd | ⟨hd, _⟩) | heq
    · rcases h2 with (hd2 | ⟨hd2, _⟩) | heq2
      · exact absurd (Date.lt_trans hd hd2) (Date.lt_irrefl _)
      · exact hd2
      · injection heq2
    · exact hd.symm
    · injection heq with h1a h1b
      exact h1a.symm
  · rintro rfl
    refine ⟨?_, ?_⟩
    · rcases Nat.eq_zero_or_pos t with ht0 | ht0
      · subst ht0; exact Or.inr rfl
      · exact Or.inl (Or.inr ⟨rfl, ht0⟩)
    · rcases Nat.lt_or_ge t 86399999999 with hlt | hge
      · exact Or.inl (Or.inr ⟨rfl, hlt⟩)
      · have heq : t = 86399999999 := by omega
        subst heq; exact Or.inr rfl

/-- C5 as frozen is false on the code: an event whose date lies in the
target calendar day and is strictly in the future is nevertheless not
selected when an `AutomaticReminderLog` row of the `reminder_type` already
exists for it — the queryset's `exclude` removes it.  Concretely: now is
2025-06-01 12:00, the event (id 1) is at 2025-06-08 10:00 (inside the
`1_week` window, in the future), a `1_week` log row for it exists, and the
selection is empty. -/
theorem selection_counterexample :
    DateTime.le (targetDateStart c4Now (daysBefore "1_week")) c4Event.date ∧
    DateTime.le c4Event.date (targetDateEnd c4Now (daysBefore "1_week")) ∧
    DateTime.lt c4Now c4Event.date ∧
    selectReminderEvents [c4Event] [c5LogSent] "1_week" c4Now = [] := by
  decide

/-- C5 (amended): `send_automatic_event_reminders` selects exactly the
events whose date falls within the calendar day exactly `days_before` days
from now (`1_week` ↦ 7, `3_days` ↦ 3, `1_day` ↦ 1, `morning_of` ↦ 0, any
unrecognised type ↦ 7), whose date is strictly in the future, **and** that
have no `AutomaticReminderLog` row of this `reminder_type` yet. -/
theorem selectReminderEvents_spec (events : List TaskEvent)
    (logs : List ReminderLog) (reminderType : String) (now : DateTime) :
    (∀ ev, ev ∈ selectReminderEvents events logs reminderType now ↔
      (ev ∈ events ∧
       DateTime.le (targetDateStart now (daysBefore reminderType)) ev.date ∧
       DateTime.le ev.date (targetDateEnd now (daysBefore reminderType)) ∧
       DateTime.lt now ev.date ∧
       ¬ ∃ l ∈ logs, l.eventId = ev.id ∧ l.reminderType = reminderType)) ∧
    (∀ ev : TaskEvent, ev.date.timeOfDay < 86400000000 →
      (DateTime.le (targetDateStart now (daysBefore reminderType)) ev.date ∧
        DateTime.le ev.date (targetDateEnd now (daysBefore reminderType)) ↔
       ev.date.date = now.date.addDays (daysBefore reminderType))) ∧
    daysBefore "1_week" = 7 ∧ daysBefore "3_days" = 3 ∧
    daysBefore "1_day" = 1 ∧ daysBefore "morning_of" = 0 ∧
    (reminderType ≠ "1_week" → reminderType ≠ "3_days" →
      reminderType ≠ "1_day" → reminderType ≠ "morning_of" →
      daysBefore reminderType = 7) := by
  refine ⟨?_, ?_, rfl, rfl, rfl, rfl, ?_⟩
  · intro ev
    rw [selectReminderEvents, List.mem_filter]
    simp only [Bool.and_eq_true, decide_eq_true_eq, Bool.not_eq_true',
      List.any_eq_false, beq_iff_eq]
    constructor
    · rintro ⟨hmem, ⟨⟨h1, h2⟩, h3⟩, h4⟩
      refine ⟨hmem, h1, h2, h3, ?_⟩
      rintro ⟨l, hl, he, ht⟩
      exact h4 l hl ⟨he, ht⟩
    · rintro ⟨hmem, h1, h2, h3, h4⟩
      exact ⟨hmem, ⟨⟨h1, h2⟩, h3⟩, fun l hl hc => h4 ⟨l, hl, hc.1, hc.2⟩⟩
  · intro ev ht
    exact window_iff (now.date.addDays (daysBefore reminderType)) ev.date ht
  · intro h1 h2 h3 h4
    rw [daysBefore, if_neg h1, if_neg h2, if_neg h3, if_neg h4]

/-- Witness for C5: the unrecognised reminder type `"2_weeks"` defaults to
7 days; event 4 at 2025-06-08 08:00 lies in the corresponding window
around now = 2025-06-01 12:00 and, with no logs, is selected. -/
theorem selectReminderEvents_spec_witness :
    (("2_weeks" ≠ "1_week") ∧ ("2_weeks" ≠ "3_days") ∧ ("2_weeks" ≠ "1_day") ∧
      ("2_weeks" ≠ "morning_of") ∧ daysBefore "2_weeks" = 7) ∧
    (c5Event2.date.timeOfDay < 86400000000 ∧
      (DateTime.le (targetDateStart c4Now (daysBefore "2_weeks")) c5Event2.date ∧
        DateTime.le c5Event2.date (targetDateEnd c4Now (daysBefore "2_weeks")) ↔
       c5Event2.date.date = c4Now.date.addDays (daysBefore "2_weeks"))) ∧
    (c5Event2 ∈ selectReminderEvents [c5Event2] [] "2_weeks" c4Now ↔
      (c5Event2 ∈ [c5Event2] ∧
       DateTime.le (targetDateStart c4Now (daysBefore "2_weeks")) c5Event2.date ∧
       DateTime.le c5Event2.date (targetDateEnd c4Now (daysBefore "2_weeks")) ∧
       DateTime.lt c4Now c5Event2.date ∧
       ¬ ∃ l ∈ ([] : List ReminderLog),
          l.eventId = c5Event2.id ∧ l.reminderType = "2_weeks")) :=
  ⟨⟨by decide, by decide, by decide, by decide,
    (selectReminderEvents_spec [c5Event2] [] "2_weeks" c4Now).2.2.2.2.2.2
      (by decide) (by decide) (by decide) (by decide)⟩,
   ⟨by decide,
    (selectReminderEvents_spec [c5Event2] [] "2_weeks" c4Now).2.1 c5Event2 (by decide)⟩,
   (selectReminderEvents_spec [c5Event2] [] "2_weeks" c4Now).1 c5Event2⟩

theorem reminderLogRow_eventId (send : TaskEvent → Except String Nat)
    (reminderType : String) (ev : TaskEvent) :
    (reminderLogRow send reminderType ev).eventId = ev.id := by
  cases hsend : send ev <;> simp [reminderLogRow, hsend]

theorem filter_bool_length_add {α : Type} (p : α → Bool) (l : List α) :
    (l.filter p).length + (l.filter (fun a => !(p a))).length = l.length := by
  induction l with
  | nil => rfl
  | cons a l ih =>
    cases h : p a <;> simp [List.filter_cons, h] <;> omega

theorem processReminderEvents_eq (send : TaskEvent → Except String Nat)
    (reminderType : String) : ∀ events : List TaskEvent,
    processReminderEvents send reminderType events =
      ((events.filter (fun ev => isOk (send ev))).length,
       (events.filter (fun ev => !isOk (send ev))).length,
       events.map (reminderLogRow send reminderType)) := by
  intro events
  induction events with
  | nil => rfl
  | cons ev rest ih =>
    cases hsend : send ev with
    | ok n =>
      simp [processReminderEvents, hsend, ih, List.filter_cons, isOk,
        reminderLogRow]
    | error msg =>
      simp [processReminderEvents, hsend, ih, List.filter_cons, isOk,
        reminderLogRow]

/-- C6: a failure for one selected event does not abort the rest: the loop
writes exactly one log row per selected event (`successful` counts the
events whose atomic block committed, `failed` the rest, and
`successful + failed` equals the number of selected events); a failed
event gets a row with `success=False` and `recipients_count=0` carrying
the message, and — the transaction having rolled back — no success row
exists for it; a successful event gets its committed `success=True` row. -/
theorem send_reminders_error_isolation (send : TaskEvent → Except String Nat)
    (reminderType : String) (events : List TaskEvent)
    (hids : (events.map TaskEvent.id).Nodup) :
    processReminderEvents send reminderType events =
      ((events.filter (fun ev => isOk (send ev))).length,
       (events.filter (fun ev => !isOk (send ev))).length,
       events.map (reminderLogRow send reminderType)) ∧
    (processReminderEvents send reminderType events).1 +
      (processReminderEvents send reminderType events).2.1 = events.length ∧
    (∀ ev ∈ events, ∀ msg, send ev = Except.error msg →
      (⟨ev.id, reminderType, 0, false, msg⟩ : ReminderLog) ∈
        (processReminderEvents send reminderType events).2.2 ∧
      (∀ l ∈ (processReminderEvents send reminderType events).2.2,
        l.eventId = ev.id → l.success = false ∧ l.recipientsCount = 0)) ∧
    (∀ ev ∈ events, ∀ n, send ev = Except.ok n →
      (⟨ev.id, reminderType, n, true, ""⟩ : ReminderLog) ∈
        (processReminderEvents send reminderType events).2.2) := by
  have heq := processReminderEvents_eq send reminderType events
  refine ⟨heq, ?_, ?_, ?_⟩
  · rw [heq]
    exact filter_bool_length_add _ events
  · intro ev hev msg hsend
    constructor
    · rw [heq]
      exact List.mem_map.mpr ⟨ev, hev, by simp [reminderLogRow, hsend]⟩
    · intro l hl hid
      rw [heq] at hl
      obtain ⟨ev2, hev2, rfl⟩ := List.mem_map.mp hl
      have hid2 : ev2.id = ev.id := by
        rw [reminderLogRow_eventId] at hid
        exact hid
      have hev2eq : ev2 = ev :=
        List.inj_on_of_nodup_map hids hev2 hev hid2
      subst hev2eq
      simp [reminderLogRow, hsend]
  · intro ev hev n hsend
    rw [heq]
    exact List.mem_map.mpr ⟨ev, hev, by simp [reminderLogRow, hsend]⟩

/-- Witness for C6: event 1 succeeds with 5 recipients, event 2 raises;
the counters sum to 2 and both rows are present. -/
theorem send_reminders_error_isolation_witness :
    (([c6Ev1, c6Ev2].map TaskEvent.id).Nodup) ∧
    (processReminderEvents c6Send "1_week" [c6Ev1, c6Ev2]).1 +
      (processReminderEvents c6Send "1_week" [c6Ev1, c6Ev2]).2.1 = 2 ∧
    (⟨c6Ev2.id, "1_week", 0, false, "boom"⟩ : ReminderLog) ∈
      (processReminderEvents c6Send "1_week" [c6Ev1, c6Ev2]).2.2 ∧
    (⟨c6Ev1.id, "1_week", 5, true, ""⟩ : ReminderLog) ∈
      (processReminderEvents c6Send "1_week" [c6Ev1, c6Ev2]).2.2 :=
  ⟨by decide,
   (send_reminders_error_isolation c6Send "1_week" [c6Ev1, c6Ev2] (by decide)).2.1,
   ((send_reminders_error_isolation c6Send "1_week" [c6Ev1, c6Ev2] (by decide)).2.2.1
      c6Ev2 (by decide) "boom" rfl).1,
   (send_reminders_error_isolation c6Send "1_week" [c6Ev1, c6Ev2] (by decide)).2.2.2
      c6Ev1 (by decide) 5 rfl⟩

theorem pyOrString_eq (a b : String) :
    pyOrString a b = if a ≠ "" then a else b := by
  unfold pyOrString
  by_cases h : a = "" <;> simp [h]

/-- C7: `get_effective_schedule` yields, for each of the five cron fields,
the override value when it is non-empty and the base configuration's value
when it is blank; with all five overrides blank the effective cron
expression equals the base configuration's cron expression. -/
theorem get_effective_schedule_spec (o : EventScheduleOverride) :
    (o.get_effective_schedule.minute =
      if o.overrideMinute ≠ "" then o.overrideMinute
      else o.configuration.minute) ∧
    (o.get_effective_schedule.hour =
      if o.overrideHour ≠ "" then o.overrideHour
      else o.configuration.hour) ∧
    (o.get_effective_schedule.dayOfWeek =
      if o.overrideDayOfWeek ≠ "" then o.overrideDayOfWeek
      else o.configuration.dayOfWeek) ∧
    (o.get_effective_schedule.dayOfMonth =
      if o.overrideDayOfMonth ≠ "" then o.overrideDayOfMonth
      else o.configuration.dayOfMonth) ∧
    (o.get_effective_schedule.monthOfYear =
      if o.overrideMonthOfYear ≠ "" then o.overrideMonthOfYear
      else o.configuration.monthOfYear) ∧
    (o.overrideMinute = "" → o.overrideHour = "" → o.overrideDayOfWeek = "" →
      o.overrideDayOfMonth = "" → o.overrideMonthOfYear = "" →
      o.get_effective_cron_expression =
        o.configuration.get_cron_expression) := by
  refine ⟨pyOrString_eq _ _, pyOrString_eq _ _, pyOrString_eq _ _,
    pyOrString_eq _ _, pyOrString_eq _ _, ?_⟩
  intro h1 h2 h3 h4 h5
  rw [EventScheduleOverride.get_effective_cron_expression,
    EventScheduleOverride.get_effective_schedule, h1, h2, h3, h4, h5]
  rfl

/-- Witness for C7: a minute-only override takes effect field-wise, and an
all-blank override reproduces the base cron expression. -/
theorem get_effective_schedule_spec_witness :
    (c7Override.get_effective_schedule.minute =
      if c7Override.overrideMinute ≠ "" then c7Override.overrideMinute
      else c7Override.configuration.minute) ∧
    (c7Blank.overrideMinute = "" ∧ c7Blank.overrideHour = "" ∧
      c7Blank.overrideDayOfWeek = "" ∧ c7Blank.overrideDayOfMonth = "" ∧
      c7Blank.overrideMonthOfYear = "") ∧
    c7Blank.get_effective_cron_expression =
      c7Blank.configuration.get_cron_expression :=
  ⟨(get_effective_schedule_spec c7Override).1,
   ⟨rfl, rfl, rfl, rfl, rfl⟩,
   (get_effective_schedule_spec c7Blank).2.2.2.2.2 rfl rfl rfl rfl rfl⟩

theorem handleTask_ne (ow : Bool) (db : String → Option TaskFields)
    (e : String × TaskFields) (n : String) (h : n ≠ e.1) :
    handleTask ow db e n = db n := if_neg h

theorem foldl_handleTask_ne (ow : Bool) :
    ∀ (ts : List (String × TaskFields)) (db : String → Option TaskFields)
      (n : String), (∀ e ∈ ts, n ≠ e.1) →
      ts.foldl (handleTask ow) db n = db n := by
  intro ts
  induction ts with
  | nil => intro db n _; rfl
  | cons e ts ih =>
    intro db n h
    rw [List.foldl_cons,
      ih _ n (fun e2 he2 => h e2 (List.mem_cons_of_mem _ he2)),
      handleTask_ne ow db e n (h e (List.mem_cons_self _ _))]

theorem foldl_handleTask_keep :
    ∀ (ts : List (String × TaskFields)) (db : String → Option TaskFields)
      (n : String) (f : TaskFields), db n = some f →
      ts.foldl (handleTask false) db n = some f := by
  intro ts
  induction ts with
  | nil => intro db n f h; exact h
  | cons e ts ih =>
    intro db n f h
    rw [List.foldl_cons]
    apply ih
    by_cases hn : n = e.1
    · subst hn
      simp [handleTask, h]
    · simp [handleTask, hn, h]

theorem foldl_handleTask_create :
    ∀ ts : List (String × TaskFields),
      ts.Pairwise (fun a b => a.1 ≠ b.1) →
      ∀ db : String → Option TaskFields, ∀ e ∈ ts, db e.1 = Option.none →
        ts.foldl (handleTask false) db e.1 = some e.2 := by
  intro ts
  induction ts with
  | nil => intro _ db e he; exact absurd he (List.not_mem_nil e)
  | cons e0 ts ih =>
    intro hp db e he hdb
    rw [List.foldl_cons]
    rcases List.mem_cons.mp he with rfl | hmem
    · apply foldl_handleTask_keep
      simp [handleTask, hdb]
    · have hne : e.1 ≠ e0.1 :=
        fun h => ((List.pairwise_cons.mp hp).1 e hmem) h.symm
      have hdb2 : handleTask false db e0 e.1 = Option.none := by
        rw [handleTask_ne false db e0 e.1 hne]
        exact hdb
      exact ih (List.pairwise_cons.mp hp).2 _ e hmem hdb2

theorem foldl_handleTask_overwrite :
    ∀ ts : List (String × TaskFields),
      ts.Pairwise (fun a b => a.1 ≠ b.1) →
      ∀ db : String → Option TaskFields, ∀ e ∈ ts,
        ts.foldl (handleTask true) db e.1 = some e.2 := by
  intro ts
  induction ts with
  | nil => intro _ db e he; exact absurd he (List.not_mem_nil e)
  | cons e0 ts ih =>
    intro hp db e he
    rw [List.foldl_cons]
    rcases List.mem_cons.mp he with rfl | hmem
    · rw [foldl_handleTask_ne true ts _ e.1 (List.pairwise_cons.mp hp).1]
      rcases hdb : db e.1 with _ | ex <;> simp [handleTask, hdb]
    · exact ih (List.pairwise_cons.mp hp).2 _ e hmem

theorem defaultTasks_names_nodup :
    defaultTasks.Pairwise (fun a b => a.1 ≠ b.1) := by
  decide

/-- C8: `setup_reminder_tasks` without `--overwrite` is idempotent — an
existing task of a default name is left with every managed field
unchanged, only the missing names are created (with the default fields) —
and with `--overwrite` every managed field except the name of an existing
task is reset to the defaults; names outside the default list are never
touched. -/
theorem setup_reminder_tasks_spec (db : String → Option TaskFields) :
    (∀ n f, db n = some f → setupReminderTasks false db n = some f) ∧
    (∀ e ∈ defaultTasks, db e.1 = Option.none →
      setupReminderTasks false db e.1 = some e.2) ∧
    (setupReminderTasks false (setupReminderTasks false db) =
      setupReminderTasks false db) ∧
    (∀ e ∈ defaultTasks, setupReminderTasks true db e.1 = some e.2) ∧
    (∀ (b : Bool) (n : String), (∀ e ∈ defaultTasks, n ≠ e.1) →
      setupReminderTasks b db n = db n) := by
  have hnodup := defaultTasks_names_nodup
  refine ⟨?_, ?_, ?_, ?_, ?_⟩
  · intro n f h
    exact foldl_handleTask_keep defaultTasks db n f h
  · intro e he h
    exact foldl_handleTask_create defaultTasks hnodup db e he h
  · funext n
    by_cases h : ∃ e ∈ defaultTasks, n = e.1
    · obtain ⟨e, he, rfl⟩ := h
      have hsome : ∃ f, setupReminderTasks false db e.1 = some f := by
        cases hdb : db e.1 with
        | some g => exact ⟨g, foldl_handleTask_keep _ db e.1 g hdb⟩
        | none => exact ⟨e.2, foldl_handleTask_create _ hnodup db e he hdb⟩
      obtain ⟨f, hf⟩ := hsome
      rw [show setupReminderTasks false (setupReminderTasks false db) e.1 =
        some f from foldl_handleTask_keep _ _ e.1 f hf, hf]
    · push_neg at h
      exact foldl_handleTask_ne false defaultTasks _ n h
  · intro e he
    exact foldl_handleTask_overwrite defaultTasks hnodup db e he
  · intro b n h
    exact foldl_handleTask_ne b defaultTasks db n h

/-- Witness for C8: a table holding only a customised 1-week task.  A run
without `--overwrite` keeps it untouched and creates the missing 3-day
task; a second run changes nothing; `--overwrite` resets the 1-week task
to the defaults; an unrelated name is never touched. -/
theorem setup_reminder_tasks_spec_witness :
    (c8Db oneWeekTask.1 = some c8Fields ∧
      setupReminderTasks false c8Db oneWeekTask.1 = some c8Fields) ∧
    (threeDayTask ∈ defaultTasks ∧ c8Db threeDayTask.1 = Option.none ∧
      setupReminderTasks false c8Db threeDayTask.1 = some threeDayTask.2) ∧
    (setupReminderTasks false (setupReminderTasks false c8Db) =
      setupReminderTasks false c8Db) ∧
    (oneWeekTask ∈ defaultTasks ∧
      setupReminderTasks true c8Db oneWeekTask.1 = some oneWeekTask.2) ∧
    ((∀ e ∈ defaultTasks, "Custom Task" ≠ e.1) ∧
      setupReminderTasks false c8Db "Custom Task" = c8Db "Custom Task") :=
  ⟨⟨by decide,
    (setup_reminder_tasks_spec c8Db).1 oneWeekTask.1 c8Fields (by decide)⟩,
   ⟨by decide, by decide,
    (setup_reminder_tasks_spec c8Db).2.1 threeDayTask (by decide) (by decide)⟩,
   (setup_reminder_tasks_spec c8Db).2.2.1,
   ⟨by decide,
    (setup_reminder_tasks_spec c8Db).2.2.2.1 oneWeekTask (by decide)⟩,
   ⟨by decide,
    (setup_reminder_tasks_spec c8Db).2.2.2.2 false "Custom Task" (by decide)⟩⟩

theorem splitSlash_ne_nil : ∀ cs : List Char, splitSlash cs ≠ [] := by
  intro cs
  induction cs with
  | nil => simp [splitSlash]
  | cons c cs ih =>
    by_cases h : c = '/'
    · simp [splitSlash, h]
    · simp only [splitSlash, if_neg h]
      cases hs : splitSlash cs <;> simp

theorem joinSlash_splitSlash : ∀ cs : List Char, joinSlash (splitSlash cs) = cs := by
  intro cs
  induction cs with
  | nil => rfl
  | cons c cs ih =>
    by_cases h : c = '/'
    · subst h
      rcases hq : splitSlash cs with _ | ⟨q, ps⟩
      · exact absurd hq (splitSlash_ne_nil cs)
      · have ih2 : joinSlash (q :: ps) = cs := by rw [← hq]; exact ih
        simp [splitSlash, hq, joinSlash, ih2]
    · rcases hq : splitSlash cs with _ | ⟨q, ps⟩
      · exact absurd hq (splitSlash_ne_nil cs)
      · have ih2 : joinSlash (q :: ps) = cs := by rw [← hq]; exact ih
        cases ps with
        | nil =>
          simp [joinSlash] at ih2
          simp [splitSlash, h, hq, joinSlash, ih2]
        | cons r rs =>
          simp [joinSlash] at ih2 ⊢
          simp [splitSlash, h, hq, joinSlash, ih2]

theorem splitSlash_no_slash_mem :
    ∀ cs : List Char, ∀ p ∈ splitSlash cs, '/' ∉ p := by
  intro cs
  induction cs with
  | nil =>
    intro p hp
    simp [splitSlash] at hp
    subst hp
    simp
  | cons c cs ih =>
    intro p hp
    by_cases h : c = '/'
    · subst h
      simp [splitSlash] at hp
      rcases hp with rfl | hp
      · simp
      · exact ih p hp
    · rcases hq : splitSlash cs with _ | ⟨q, ps⟩
      · exact absurd hq (splitSlash_ne_nil cs)
      · simp [splitSlash, h, hq] at hp
        rcases hp with rfl | hp
        · intro hmem
          rcases List.mem_cons.mp hmem with heq | hmem2
          · exact h heq.symm
          · exact ih q (by rw [hq]; exact List.mem_cons_self q ps) hmem2
        · exact ih p (by rw [hq]; exact List.mem_cons_of_mem q hp)

theorem splitSlash_no_slash (v : List Char) (hv : '/' ∉ v) :
    splitSlash v = [v] := by
  induction v with
  | nil => rfl
  | cons c v ih =>
    have hc : c ≠ '/' := fun h => hv (h ▸ List.mem_cons_self c v)
    have hv2 : '/' ∉ v := fun h => hv (List.mem_cons_of_mem c h)
    simp [splitSlash, hc, ih hv2]

theorem splitSlash_append (v : List Char) (hv : '/' ∉ v) (rest : List Char) :
    splitSlash (v ++ '/' :: rest) = v :: splitSlash rest := by
  induction v with
  | nil => simp [splitSlash]
  | cons c v ih =>
    have hc : c ≠ '/' := fun h => hv (h ▸ List.mem_cons_self c v)
    have hv2 : '/' ∉ v := fun h => hv (List.mem_cons_of_mem c h)
    simp [splitSlash, hc, ih hv2]

/-- The source's regex accepts exactly the paths of the claim's form. -/
theorem opPathRegexMatch_iff (path : String) :
    opPathRegexMatch path = true ↔ isOpSecretPath path := by
  constructor
  · intro h
    rw [opPathRegexMatch] at h
    split at h
    next rest heq =>
      rw [Bool.and_eq_true] at h
      have hlen : (splitSlash rest).length = 3 := by
        have h1 := h.1
        simpa using h1
      obtain ⟨a, b, c, habc⟩ := List.length_eq_three.mp hlen
      have hne : ∀ p ∈ splitSlash rest, p ≠ [] := by
        intro p hp
        have h2 := List.all_eq_true.mp h.2 p hp
        simpa using h2
      have hma : a ∈ splitSlash rest := by rw [habc]; simp
      have hmb : b ∈ splitSlash rest := by rw [habc]; simp
      have hmc : c ∈ splitSlash rest := by rw [habc]; simp
      refine ⟨a, b, c, hne a hma, hne b hmb, hne c hmc,
        splitSlash_no_slash_mem rest a hma, splitSlash_no_slash_mem rest b hmb,
        splitSlash_no_slash_mem rest c hmc, ?_⟩
      have hrest : rest = a ++ ('/' :: (b ++ ('/' :: c))) := by
        have hj := joinSlash_splitSlash rest
        rw [habc] at hj
        simpa [joinSlash] using hj.symm
      rw [heq, hrest]
      rfl
    next =>
      exact absurd h (by simp)
  · rintro ⟨v, i, f, hv, hi, hf, hvs, his, hfs, heq⟩
    rw [opPathRegexMatch]
    have hop : "op://".data = ['o', 'p', ':', '/', '/'] := rfl
    rw [heq, hop]
    simp only [List.cons_append, List.nil_append]
    rw [splitSlash_append v hvs, splitSlash_append i his,
      splitSlash_no_slash f hfs]
    obtain ⟨av, v2, rfl⟩ := List.exists_cons_of_ne_nil hv
    obtain ⟨ai, i2, rfl⟩ := List.exists_cons_of_ne_nil hi
    obtain ⟨af, f2, rfl⟩ := List.exists_cons_of_ne_nil hf
    simp [List.isEmpty]

/-- C10: `get_secret` raises `ValueError` exactly when the path is not of
the form `op://<vault>/<item>/<field>` with three non-empty slash-free
segments; on that error path no external command runs and the environment
is untouched; on success with `env_var=None` the environment is untouched
and the returned secret is the `op read` output stripped of surrounding
whitespace. -/
theorem get_secret_spec (opRead : String → String) (path : String)
    (envVar : Option String) (env : String → Option String) :
    ((get_secret opRead path envVar env).result = Option.none ↔
      ¬ isOpSecretPath path) ∧
    (¬ isOpSecretPath path →
      (get_secret opRead path envVar env).calls = [] ∧
      (get_secret opRead path envVar env).env = env) ∧
    (isOpSecretPath path →
      (get_secret opRead path Option.none env).result =
        some (pyStrip (opRead path)) ∧
      (get_secret opRead path Option.none env).env = env ∧
      (get_secret opRead path Option.none env).calls =
        [["op", "read", path]]) := by
  by_cases h : opPathRegexMatch path = true
  · have hop : isOpSecretPath path := (opPathRegexMatch_iff path).mp h
    refine ⟨?_, fun hn => absurd hop hn, fun _ => ?_⟩
    · rw [get_secret, if_pos h]
      simp [hop]
    · rw [get_secret, if_pos h]
      exact ⟨rfl, rfl, rfl⟩
  · have hop : ¬ isOpSecretPath path :=
      fun hcl => h ((opPathRegexMatch_iff path).mpr hcl)
    refine ⟨?_, fun _ => ?_, fun hcontra => absurd hcontra hop⟩
    · rw [get_secret, if_neg h]
      simp [hop]
    · rw [get_secret, if_neg h]
      exact ⟨rfl, rfl⟩

/-- Witness for C10: a well-formed path is read, stripped, and leaves the
environment alone; a two-segment path raises without any command or
environment change. -/
theorem get_secret_spec_witness :
    (isOpSecretPath "op://Vault/Item/field") ∧
    ((get_secret c10Read "op://Vault/Item/field" Option.none c10Env).result =
      some (pyStrip (c10Read "op://Vault/Item/field")) ∧
     (get_secret c10Read "op://Vault/Item/field" Option.none c10Env).env =
      c10Env ∧
     (get_secret c10Read "op://Vault/Item/field" Option.none c10Env).calls =
      [["op", "read", "op://Vault/Item/field"]]) ∧
    (¬ isOpSecretPath "op://Vault/Item") ∧
    ((get_secret c10Read "op://Vault/Item" (some "X") c10Env).calls = [] ∧
     (get_secret c10Read "op://Vault/Item" (some "X") c10Env).env = c10Env) := by
  have hyes : isOpSecretPath "op://Vault/Item/field" :=
    (opPathRegexMatch_iff "op://Vault/Item/field").mp (by decide)
  have hno : ¬ isOpSecretPath "op://Vault/Item" :=
    fun hcl =>
      absurd ((opPathRegexMatch_iff "op://Vault/Item").mpr hcl) (by decide)
  exact ⟨hyes,
    (get_secret_spec c10Read "op://Vault/Item/field" Option.none c10Env).2.2 hyes,
    hno,
    (get_secret_spec c10Read "op://Vault/Item" (some "X") c10Env).2.1 hno⟩
end Rap
